import Mathlib

/-!
Verification of the prot2rust code generator (src/util.rs, src/generate/bitfield.rs,
src/generate/structure.rs) via a shallow embedding: the width resolver, the bitfield
engine's offset/mask arithmetic and the semantics of the generated reader/writer
accessors, and the structure engine's serialization skeleton are translated into
executable Lean definitions, and the specified properties are proved about them.

Machine integers of the source are modelled as `Nat` with explicit reductions
`% 2 ^ w` exactly where the Rust arithmetic is performed in a `w`-bit type.
-/

namespace ProtSpec

/-! ## Width resolver (src/util.rs, `U32Ext`)

`to_ty` maps a bit count to the smallest Rust integral type able to hold it and
`to_ty_width` to that type's bit width; both reject counts of 0 or above 64.
The error text of the source (`can't convert {} bits into a Rust integral type`)
is rendered here without the apostrophe. -/

def to_ty (n : Nat) : Except String String :=
  if n = 1 then .ok "bool"
  else if 2 ≤ n ∧ n ≤ 8 then .ok "u8"
  else if 9 ≤ n ∧ n ≤ 16 then .ok "u16"
  else if 17 ≤ n ∧ n ≤ 32 then .ok "u32"
  else if 33 ≤ n ∧ n ≤ 64 then .ok "u64"
  else .error ("cannot convert " ++ toString n ++ " bits into a Rust integral type")

def to_ty_width (n : Nat) : Except String Nat :=
  if n = 1 then .ok 1
  else if 2 ≤ n ∧ n ≤ 8 then .ok 8
  else if 9 ≤ n ∧ n ≤ 16 then .ok 16
  else if 17 ≤ n ∧ n ≤ 32 then .ok 32
  else if 33 ≤ n ∧ n ≤ 64 then .ok 64
  else .error ("cannot convert " ++ toString n ++ " bits into a Rust integral type width")

/-! ## Bitfield schema (src/generate/bitfield.rs, data model) -/

/-- An enumerated value of a named bit field: `EnumeratedValue(name, desc, value)`. -/
structure EnumeratedValue where
  name : String
  desc : String
  value : Nat
  deriving DecidableEq, Repr

/-- A named bit field (`BitFieldMember` of the source). -/
structure BitFieldMember where
  name : String
  desc : String
  bitsize : Nat
  enumerated_values : List EnumeratedValue
  deriving DecidableEq, Repr

/-- A slot of a bitfield register: a named field or a reserved gap (`MaybeField`). -/
inductive MaybeField where
  | Field : BitFieldMember → MaybeField
  | Reserved : Nat → MaybeField
  deriving DecidableEq, Repr

def MaybeField.bitsize : MaybeField → Nat
  | .Field f => f.bitsize
  | .Reserved n => n

/-- A bitfield register schema (`BitField` of the source). -/
structure BitField where
  name : String
  desc : String
  fields : List MaybeField
  deriving DecidableEq, Repr

/-! ## Mask and writer arithmetic of the generated accessors

`add_field` computes `field_mask = (1 << field.bitsize) - 1` in `u64`
(src/generate/bitfield.rs line 119).  A Rust shift of a `u64` by 64 or more
overflows: with overflow checks enabled the generator panics, and in release
mode the shift amount is masked modulo 64.  The release (masked) semantics is
embedded here, which is what makes the `bitsize = 64` boundary observable:
`1 << (64 % 64) = 1`, so the computed mask is `0`, not `2 ^ 64 - 1`. -/

def field_mask (bitsize : Nat) : Nat :=
  (1 <<< (bitsize % 64)) - 1

/-- Bitwise complement inside a `sw`-bit integer: `!x` of Rust on a value `x < 2 ^ sw`. -/
def rust_not (sw x : Nat) : Nat :=
  (2 ^ sw - 1) ^^^ x

/-- The generated writer `bits` method (src/generate/bitfield.rs line 246):
`self.w.bits = (self.w.bits & !(mask << offset)) | ((value as sty & mask) << offset)`,
with every operation performed in the register type of `sw` bits. -/
def write_bits (sw off w reg value : Nat) : Nat :=
  (reg &&& rust_not sw ((field_mask w <<< off) % 2 ^ sw))
    ||| (((value &&& field_mask w) <<< off) % 2 ^ sw)

/-- The generated reader accessor (src/generate/bitfield.rs lines 255-272):
width 1 reads `(self.bits & (1 << pos)) != 0` as a boolean (0 or 1 here),
any other width reads `(self.bits >> offset) & mask`. -/
def read_field (off w reg : Nat) : Nat :=
  if w = 1 then (if reg &&& (1 <<< off) ≠ 0 then 1 else 0)
  else (reg >>> off) &&& field_mask w

/-- The match pattern emitted for an enumerated value (src/util.rs
`unsuffixed_or_bool`): for a width-1 field the literal becomes `false`/`true`
(0 or 1 here), otherwise the value itself. -/
def unsuffixed_or_bool (n width : Nat) : Nat :=
  if width = 1 then (if n = 0 then 0 else 1) else n

/-- The generated `variant()` decode match (src/generate/bitfield.rs lines 214-219):
the raw field value is compared against each declared value's pattern in
declaration order; the first exact match selects the variant. -/
def decode_variant (w : Nat) (evs : List EnumeratedValue) (raw : Nat) : Option String :=
  (evs.find? (fun ev => unsuffixed_or_bool ev.value w == raw)).map (·.name)

/-- Whether the decode match receives a trailing `_ => unreachable!()` arm
(src/generate/bitfield.rs lines 168-173): the source compares the number of
declared values against `noptions = 1 << field.bitsize.to_ty_width()?`, a
`usize` shift, so the threshold is the number of values of the field storage
type, not of the field width (and the shift amount is masked modulo 64). -/
def has_unreachable_arm (f : BitFieldMember) : Except String Bool :=
  (to_ty_width f.bitsize).map
    (fun tw => decide (f.enumerated_values.length < 1 <<< (tw % 64)))

/-! ## The bitfield engine render pipeline (src/generate/bitfield.rs, `render`) -/

/-- The per-field data computed by `add_field`: sanitized emission of identifiers
is the external naming service and is not modelled; the field position uses the
non-reversed order of the source (`reverse_order = false`, lines 111-117). -/
structure FieldRender where
  name : String
  field_pos : Nat
  mask : Nat
  fty : String
  has_arm : Bool
  deriving DecidableEq, Repr

/-- Fallible skeleton of `add_field` (src/generate/bitfield.rs lines 91-283), in
the evaluation order of the source: `to_ty` on the field width, `to_ty` on the
register width, then the mask, position and fallback-arm computation. -/
def add_field (f : BitFieldMember) (structsize offset : Nat) : Except String FieldRender := do
  let fty ← to_ty f.bitsize
  let _sty ← to_ty structsize
  let tw ← to_ty_width f.bitsize
  .ok ⟨f.name, offset, field_mask f.bitsize, fty,
       decide (f.enumerated_values.length < 1 <<< (tw % 64))⟩

/-- The offset accumulation loop of `render` (src/generate/bitfield.rs lines
314-328): slots are walked in declaration order with a running bit offset
starting from the given value; reserved slots only advance the offset. -/
def render_fields : List MaybeField → Nat → Nat → Except String (List FieldRender)
  | [], _, _ => .ok []
  | .Field f :: rest, structsize, offset => do
      let fr ← add_field f structsize offset
      let frs ← render_fields rest structsize (offset + f.bitsize)
      .ok (fr :: frs)
  | .Reserved n :: rest, structsize, offset =>
      render_fields rest structsize (offset + n)

/-- Fallible skeleton of the bitfield engine `render` (src/generate/bitfield.rs
lines 285-351): the register width is the sum of all slot widths passed through
the width resolver, then every named field is rendered at its running offset
starting from 0. -/
def render (bf : BitField) : Except String (Nat × List FieldRender) := do
  let structsize ← to_ty_width ((bf.fields.map MaybeField.bitsize).sum)
  let _sty ← to_ty structsize
  let frs ← render_fields bf.fields structsize 0
  .ok (structsize, frs)

/-! ## Structure schema (src/generate/structure.rs, data model) -/

/-- A primitive member: `PrimitiveMember { name, bytes }`. -/
structure PrimitiveMember where
  name : String
  bytes : Nat
  deriving DecidableEq, Repr

/-- A bitfield-backed member: `BitfieldMember { name, bitfield, bytes }`. -/
structure BitfieldMember where
  name : String
  bitfield : String
  bytes : Nat
  deriving DecidableEq, Repr

/-- An alternative-backed member: `AlternativesMember { name, alternatives }`. -/
structure AlternativesMember where
  name : String
  alternatives : String
  deriving DecidableEq, Repr

/-- A structure member (`StructMember` of the source). -/
inductive StructMember where
  | PrimitiveMember : PrimitiveMember → StructMember
  | BitfieldMember : BitfieldMember → StructMember
  | AlternativesMember : AlternativesMember → StructMember
  deriving DecidableEq, Repr

def StructMember.isAlt : StructMember → Bool
  | .AlternativesMember _ => true
  | _ => false

/-- The declared wire width of a member in bytes: primitives their declared
byte width, bitfield members their register byte width; an alternative member
has no fixed declared width (its width is the active option's). -/
def StructMember.wire_bytes : StructMember → Option Nat
  | .PrimitiveMember m => some m.bytes
  | .BitfieldMember m => some m.bytes
  | .AlternativesMember _ => none

/-- A structure schema (`Structure` of the source). -/
structure Structure where
  name : String
  members : List StructMember
  deriving DecidableEq, Repr

/-- An alternatives group (`AlternativeOptions` of the source): group name, the
name of the default option, and the declared option names in order. -/
structure AlternativeOptions where
  name : String
  default : String
  alternatives : List String
  deriving DecidableEq, Repr

/-- The `AlternativeOptions::new` constructor (src/generate/structure.rs lines
199-213): records the default option's name and inserts it as the first
declared option. -/
def AlternativeOptions.new (name defaultName : String) : AlternativeOptions :=
  ⟨name, defaultName, [defaultName]⟩

/-- `AlternativeOptions::insert_type` (src/generate/structure.rs lines 214-221):
appends an option name to the list. -/
def AlternativeOptions.insert_type (o : AlternativeOptions) (s : String) : AlternativeOptions :=
  { o with alternatives := o.alternatives ++ [s] }

/-- The alternatives registry (`Alternatives`, src/generate/structure.rs lines
86-121).  The source stores a `HashMap<String, AlternativeOptions>`; lookups
are a pure function of the contents, but iteration (used by
`render_alternatives`) follows a hasher-seed-dependent order that is not a
function of the contents.  That order is made explicit here as the list
order. -/
def Alternatives := List (String × AlternativeOptions)

instance : DecidableEq Alternatives := by
  unfold Alternatives
  infer_instance

/-- `Alternatives::get` (src/generate/structure.rs lines 114-120): key lookup,
failing with the fixed message `Could not find alternative.` when the group is
absent.  The message does not mention the requested group name. -/
def Alternatives.get (a : Alternatives) (name : String) : Except String AlternativeOptions :=
  match a.find? (fun p => p.1 == name) with
  | none => .error "Could not find alternative."
  | some p => .ok p.2

/-! ## Serialization semantics of the generated structure code

The generated `write` emits, member by member in declaration order, the
little-endian bytes of the member's storage value
(`out.write(&self.m.to_le_bytes())`, src/generate/structure.rs lines 455-457
and 495-497); the generated `read` reads exactly the declared byte count per
member and rebuilds the value with `from_le_bytes`
(lines 448-453 and 488-493), failing on a short read (`read_exact`). -/

/-- Little-endian byte representation on `n` bytes (`to_le_bytes`). -/
def to_le_bytes : Nat → Nat → List Nat
  | 0, _ => []
  | n + 1, v => (v % 256) :: to_le_bytes n (v / 256)

/-- Little-endian recomposition of a byte list (`from_le_bytes`). -/
def from_le_bytes (bs : List Nat) : Nat :=
  bs.foldr (fun b acc => b + 256 * acc) 0

/-- The bytes one member contributes to `write`: primitives and
bitfield-backed members write their little-endian storage bytes; an
alternative member delegates to the active option's own `write`, which is not
a function of a single integer storage value and is modelled separately
(`union_write`). -/
def member_write : StructMember → Nat → Option (List Nat)
  | .PrimitiveMember m, v => some (to_le_bytes m.bytes v)
  | .BitfieldMember m, v => some (to_le_bytes m.bytes v)
  | .AlternativesMember _, _ => none

/-- The generated `write` routine over a member list and the corresponding
storage values, concatenating each member's bytes in declaration order. -/
def struct_write : List StructMember → List Nat → Option (List Nat)
  | [], [] => some []
  | m :: ms, v :: vs => do
      let b ← member_write m v
      let rest ← struct_write ms vs
      pure (b ++ rest)
  | _, _ => none

/-- The generated `read` routine: per member, in declaration order, read
exactly the declared byte count (failing like `read_exact` when the stream is
short) and rebuild the storage value; returns the values and the remaining
stream.  No member-level read exists for alternative members. -/
def struct_read : List StructMember → List Nat → Option (List Nat × List Nat)
  | [], stream => some ([], stream)
  | m :: ms, stream => do
      let n ← m.wire_bytes
      if stream.length < n then none
      else do
        let (vs, rest) ← struct_read ms (stream.drop n)
        pure (from_le_bytes (stream.take n) :: vs, rest)

/-- The declared wire widths of all members, defined when every member has a
fixed declared width (no alternative member). -/
def wire_bytes_list : List StructMember → Option (List Nat)
  | [] => some []
  | m :: ms => do
      let n ← m.wire_bytes
      let ns ← wire_bytes_list ms
      pure (n :: ns)

/-! ## Generated tagged-union semantics (src/generate/structure.rs, `render_alternatives`)

A union value of a group is a case name together with the storage values of
that case's structure; the structure layouts of the option names are supplied
by an environment `env`. -/

/-- The default storage value a member receives in the generated `new()`
(src/generate/structure.rs lines 540-542 via `default_value`): 0 for primitive
and bitfield members; an alternative member's default comes from its type
parameter and has no integer storage value at this layer. -/
def StructMember.member_default : StructMember → Option Nat
  | .PrimitiveMember _ => some 0
  | .BitfieldMember _ => some 0
  | .AlternativesMember _ => none

/-- The generated `Structure::new()` value: every member at its default. -/
def struct_new : List StructMember → Option (List Nat)
  | [] => some []
  | m :: ms => do
      let v ← m.member_default
      let vs ← struct_new ms
      pure (v :: vs)

/-- The generated union `default()` (src/generate/structure.rs lines 269-285):
wraps the default instance (`new()`) of the group's first declared option
(`alt.alternatives[0]`; the source panics on an empty option list, modelled as
`none`). -/
def union_default (alt : AlternativeOptions) (env : String → List StructMember) :
    Option (String × List Nat) := do
  let hd ← alt.alternatives.head?
  let z ← struct_new (env hd)
  pure (hd, z)

/-- The generated union `write` (src/generate/structure.rs lines 287-291):
`match self { Case(v) => v.write(out) }` — dispatch to the active case's own
structure `write`. -/
def union_write (env : String → List StructMember) (c : String × List Nat) :
    Option (List Nat) :=
  struct_write (env c.1) c.2

/-- The generated per-option `read_<option>` function on the union type
(src/generate/structure.rs lines 262-266): decodes exactly that option's
layout and wraps the result in the corresponding case. -/
def union_read_opt (env : String → List StructMember) (opt : String) (stream : List Nat) :
    Option ((String × List Nat) × List Nat) :=
  (struct_read (env opt) stream).map (fun r => ((opt, r.1), r.2))

/-! ## The structure engine render pipeline (src/generate/structure.rs, `render_with_alts`) -/

/-- The emission facts of `render_with_alts` the specification speaks about:
whether the structure has an alternative member, and which of the serialization
routines are emitted where (src/generate/structure.rs lines 562-660). -/
structure StructRender where
  name : String
  has_alt : Bool
  /-- `maybe_read_fun`: the unconditional `read` is emitted iff no alternative member. -/
  read_emitted : Bool
  /-- `maybe_write_fun`: `write` on the parameterized type iff no alternative member. -/
  write_on_main : Bool
  /-- `write` is marked `unsafe` iff the structure has an alternative member. -/
  unsafe_write : Bool
  /-- The flattened `Generic` companion type (which carries `write`) iff an alternative member exists. -/
  generic_emitted : Bool
  /-- The `Default` type alias, emitted iff `default_templ` is nonempty. -/
  default_alias_emitted : Bool
  deriving DecidableEq, Repr

/-- The first member loop of `render_with_alts` (src/generate/structure.rs lines
383-402): every alternative member resolves its group in the registry via
`alternatives.get(..)?`, so a dangling reference aborts rendering here. -/
def check_alts : List StructMember → Alternatives → Except String Unit
  | [], _ => .ok ()
  | .AlternativesMember a :: rest, alts => do
      let _ ← alts.get a.alternatives
      check_alts rest alts
  | _ :: rest, alts => check_alts rest alts

/-- The fallible part of the second member loop (src/generate/structure.rs lines
404-560): primitive and bitfield members resolve their storage type via
`(mem.bytes * 8).to_ty()?`; the alternative branch performs no fallible call
(its slot is the type parameter `<name>T`). -/
def member_ty : StructMember → Except String String
  | .PrimitiveMember m => to_ty (m.bytes * 8)
  | .BitfieldMember m => to_ty (m.bytes * 8)
  | .AlternativesMember a => .ok (a.name ++ "T")

/-- Fallible skeleton of `render_with_alts` (src/generate/structure.rs lines
354-663): the alternative-resolution loop, then the member loop, then the
emission decisions driven by `has_alt`. -/
def render_with_alts (s : Structure) (alts : Alternatives) : Except String StructRender := do
  let _ ← check_alts s.members alts
  let _tys ← s.members.mapM member_ty
  let ha := s.members.any StructMember.isAlt
  .ok { name := s.name, has_alt := ha, read_emitted := !ha, write_on_main := !ha,
        unsafe_write := ha, generic_emitted := ha, default_alias_emitted := ha }

/-- `render` for a structure without alternatives support
(src/generate/structure.rs lines 672-674): `render_with_alts` on an empty
registry. -/
def render_struct (s : Structure) : Except String StructRender :=
  render_with_alts s []

/-- The per-group fragment of `render_alternatives` (src/generate/structure.rs
lines 232-296): the trait, the tagged-union enumeration with one case per
option, the `default()` selecting the first option, and one `read_<option>`
function per option.  Identifier case conversion is the external naming
service and is modelled as the identity. -/
structure GroupRender where
  name : String
  cases : List String
  default_case : Option String
  read_funs : List String
  deriving DecidableEq, Repr

def render_group (key : String) (alt : AlternativeOptions) : GroupRender :=
  { name := key
  , cases := alt.alternatives
  , default_case := alt.alternatives.head?
  , read_funs := alt.alternatives.map (fun o => "read_" ++ o) }

/-- `render_alternatives` (src/generate/structure.rs lines 224-301): one group
fragment per registry entry, concatenated in the iteration order of the
registry map. -/
def render_alternatives (alts : Alternatives) : List GroupRender :=
  alts.map (fun p => render_group p.1 p.2)

/-! ## Round-trip lemmas for the serialization semantics -/

theorem to_le_bytes_length (n v : Nat) : (to_le_bytes n v).length = n := by
  induction n generalizing v with
  | zero => rfl
  | succ k ih => simp [to_le_bytes, ih]

theorem from_le_bytes_to_le_bytes (n v : Nat) (h : v < 2 ^ (8 * n)) :
    from_le_bytes (to_le_bytes n v) = v := by
  induction n generalizing v with
  | zero =>
    interval_cases v
    rfl
  | succ k ih =>
    have hdiv : v / 256 < 2 ^ (8 * k) := by
      have h2 : 2 ^ (8 * (k + 1)) = 2 ^ (8 * k) * 256 := by ring
      rw [h2] at h
      omega
    simp only [to_le_bytes, from_le_bytes, List.foldr_cons]
    have hk := ih (v / 256) hdiv
    simp only [from_le_bytes] at hk
    rw [hk]
    omega

theorem member_write_of_not_alt (m : StructMember) (v : Nat) (h : m.isAlt = false) :
    ∃ n, m.wire_bytes = some n ∧ member_write m v = some (to_le_bytes n v) := by
  cases m with
  | PrimitiveMember p => exact ⟨p.bytes, rfl, rfl⟩
  | BitfieldMember b => exact ⟨b.bytes, rfl, rfl⟩
  | AlternativesMember a => simp [StructMember.isAlt] at h

theorem struct_write_read_aux (members : List StructMember) (vs extra : List Nat)
    (hlen : vs.length = members.length)
    (hnoalt : ∀ m ∈ members, m.isAlt = false)
    (hfit : ∀ p ∈ members.zip vs, p.2 < 2 ^ (8 * p.1.wire_bytes.getD 0)) :
    ∃ bytes ws, wire_bytes_list members = some ws
      ∧ struct_write members vs = some bytes
      ∧ bytes.length = ws.sum
      ∧ struct_read members (bytes ++ extra) = some (vs, extra) := by
  induction members generalizing vs with
  | nil =>
    cases vs with
    | nil => exact ⟨[], [], rfl, rfl, rfl, rfl⟩
    | cons v vs => simp at hlen
  | cons m ms ih =>
    cases vs with
    | nil => simp at hlen
    | cons v vs =>
      have hm : m.isAlt = false := hnoalt m (List.mem_cons_self m ms)
      obtain ⟨n, hwb, hmw⟩ := member_write_of_not_alt m v hm
      have hvfit : v < 2 ^ (8 * n) := by
        have hin := hfit (m, v) (by simp)
        simpa [hwb] using hin
      obtain ⟨bytes, ws, hmap, hw, hblen, hr⟩ := ih vs
        (by simpa using hlen)
        (fun x hx => hnoalt x (List.mem_cons_of_mem m hx))
        (fun p hp => hfit p (by simp [hp]))
      refine ⟨to_le_bytes n v ++ bytes, n :: ws, ?_, ?_, ?_, ?_⟩
      · simp [wire_bytes_list, hwb, hmap]
      · simp [struct_write, hmw, hw]
      · simp [to_le_bytes_length, hblen]
      · have hlen2 : (to_le_bytes n v).length = n := to_le_bytes_length n v
        simp only [struct_read, hwb, Option.bind_eq_bind, Option.some_bind, List.append_assoc]
        rw [if_neg (by simp [hlen2])]
        rw [List.take_left' hlen2, List.drop_left' hlen2, hr,
            from_le_bytes_to_le_bytes n v hvfit]
        rfl

/-! ## Concrete schemas used by the scenario claims -/

/-- The 3-bit enumerated `type` field of the scenario: `Beacon = 0`, `Data = 1`. -/
def c3_type_field : BitFieldMember :=
  ⟨"type", "", 3, [⟨"Beacon", "", 0⟩, ⟨"Data", "", 1⟩]⟩

/-- The 1-bit plain `secure` field of the scenario. -/
def c3_secure_field : BitFieldMember :=
  ⟨"secure", "", 1, []⟩

/-- The scenario bitfield: `type` (3 bits), `secure` (1 bit), 3 reserved bits. -/
def c3_bitfield : BitField :=
  ⟨"frame_control", "", [.Field c3_type_field, .Field c3_secure_field, .Reserved 3]⟩

/-! ## Claims about the bitfield engine -/

/-- C1: for every register width, field offset and field width, the generated
writer's masked update equals
`(register & !(mask << offset)) | ((value & mask) << offset)` with
`mask = 2 ^ width - 1` for every width up to 63 (the register-width reductions
of the Rust integer type spelled out), and for every field width it leaves
every bit outside `[offset, offset + width)` of the register unchanged, for
any register value and any written value. -/
theorem c1_write_preserves_foreign_bits (sw off w reg value : Nat)
    (hreg : reg < 2 ^ sw) :
    (w ≤ 63 →
      write_bits sw off w reg value
        = (reg &&& rust_not sw (((2 ^ w - 1) <<< off) % 2 ^ sw))
          ||| (((value &&& (2 ^ w - 1)) <<< off) % 2 ^ sw))
    ∧ ∀ i, i < off ∨ off + w ≤ i →
        (write_bits sw off w reg value).testBit i = reg.testBit i := by
  have hmask64 : field_mask w = 2 ^ (w % 64) - 1 := by
    rw [field_mask, Nat.shiftLeft_eq, one_mul]
  constructor
  · intro hw
    have hmask : field_mask w = 2 ^ w - 1 := by
      rw [hmask64, Nat.mod_eq_of_lt (by omega)]
    rw [write_bits, hmask]
  · intro i hi
    by_cases hsw : i < sw
    · by_cases hoff : off ≤ i
      · have hmb : (field_mask w).testBit (i - off) = false := by
          rw [hmask64, Nat.testBit_two_pow_sub_one]
          simp only [decide_eq_false_iff_not, not_lt]
          have hmle : w % 64 ≤ w := Nat.mod_le w 64
          omega
        simp only [write_bits, rust_not, Nat.testBit_or, Nat.testBit_and,
          Nat.testBit_xor, Nat.testBit_mod_two_pow, Nat.testBit_shiftLeft, hmb,
          Nat.testBit_two_pow_sub_one]
        simp [hsw, hoff]
      · simp only [write_bits, rust_not, Nat.testBit_or, Nat.testBit_and,
          Nat.testBit_xor, Nat.testBit_mod_two_pow, Nat.testBit_shiftLeft,
          Nat.testBit_two_pow_sub_one]
        simp [hsw, hoff]
    · have h1 : reg.testBit i = false :=
        Nat.testBit_lt_two_pow
          (lt_of_lt_of_le hreg (Nat.pow_le_pow_right (by norm_num) (by omega)))
      rw [h1]
      simp only [write_bits, rust_not, Nat.testBit_or, Nat.testBit_and,
        Nat.testBit_xor, Nat.testBit_mod_two_pow, Nat.testBit_shiftLeft,
        Nat.testBit_two_pow_sub_one]
      simp [hsw]

/-- Witness for C1: writing the width-1 field at offset 3 of an 8-bit register
holding 1 leaves bit 0 unchanged. -/
theorem c1_write_preserves_foreign_bits_witness :
    (write_bits 8 3 1 1 1).testBit 0 = (1 : Nat).testBit 0 :=
  (c1_write_preserves_foreign_bits 8 3 1 1 1 (by decide)).2 0 (Or.inl (by decide))

/-- C3: the offset walk starts at 0, visits slots in declaration order and a
reserved slot only advances the running offset; on the scenario schema
(`type`: 3 bits with `Beacon = 0`/`Data = 1`, `secure`: 1 bit, 3 reserved
bits) the register resolves to 8 bits with `type` at offset 0 (mask 7) and
`secure` at offset 3 (mask 1); setting `type = Data` then `secure = 1` on a
zero register yields the raw value 9; and reading `type` back from 9 decodes
to the `Data` variant. -/
theorem c3_scenario_offsets_and_value :
    (∀ rest structsize off n,
        render_fields (MaybeField.Reserved n :: rest) structsize off
          = render_fields rest structsize (off + n))
    ∧ render c3_bitfield
        = .ok (8, [⟨"type", 0, 7, "u8", true⟩, ⟨"secure", 3, 1, "bool", true⟩])
    ∧ write_bits 8 3 1 (write_bits 8 0 3 0 1) 1 = 9
    ∧ decode_variant 3 c3_type_field.enumerated_values (read_field 0 3 9) = some "Data" :=
  ⟨fun _ _ _ _ => rfl, rfl, by decide, rfl⟩

/-- C5: observed at the failing input.  The width resolver accepts a bit width
of 64 (`to_ty_width 64 = ok 64`), and for widths 1, 32 and 63 the computed
field mask is `2 ^ w - 1`; but at the accepted boundary width 64 the `u64`
shift `1 << 64` overflows, so the computed mask is 0 (release-mode masked
shift; with overflow checks the generator panics) and not `2 ^ 64 - 1`. -/
theorem c5_field_mask_overflows_at_64 :
    field_mask 1 = 2 ^ 1 - 1
    ∧ field_mask 32 = 2 ^ 32 - 1
    ∧ field_mask 63 = 2 ^ 63 - 1
    ∧ to_ty_width 64 = .ok 64
    ∧ field_mask 64 = 0
    ∧ field_mask 64 ≠ 2 ^ 64 - 1 := by
  refine ⟨rfl, by decide, by decide, rfl, rfl, by decide⟩

/-- C10: a bitfield schema whose slot widths sum to 0 is rejected: `render`
passes the total through the width resolver, which fails on 0 with a width
error just as it fails on every count above 64, so no fragment is produced. -/
theorem c10_zero_width_bitfield_rejected (bf : BitField)
    (h : (bf.fields.map MaybeField.bitsize).sum = 0) :
    render bf = .error "cannot convert 0 bits into a Rust integral type width"
    ∧ ∀ n, 64 < n → (to_ty_width n).isOk = false := by
  constructor
  · unfold render
    rw [h]
    rfl
  · intro n hn
    unfold to_ty_width
    split_ifs <;> first | omega | rfl

/-- C2: for every structure schema with no alternative member and every
assignment of member values that fit their storage types, the generated
`write` succeeds, the written length equals the sum of the declared member
byte widths (bitfield members contributing their register byte width), and the
generated `read` on exactly those bytes returns the same values with nothing
left over. -/
theorem c2_fixed_structure_roundtrip (members : List StructMember) (vs : List Nat)
    (hlen : vs.length = members.length)
    (hnoalt : ∀ m ∈ members, m.isAlt = false)
    (hfit : ∀ p ∈ members.zip vs, p.2 < 2 ^ (8 * p.1.wire_bytes.getD 0)) :
    ∃ bytes ws, wire_bytes_list members = some ws
      ∧ struct_write members vs = some bytes
      ∧ bytes.length = ws.sum
      ∧ struct_read members bytes = some (vs, []) := by
  obtain ⟨bytes, ws, h1, h2, h3, h4⟩ :=
    struct_write_read_aux members vs [] hlen hnoalt hfit
  exact ⟨bytes, ws, h1, h2, h3, by simpa using h4⟩

/-- Witness for C2: a 2-byte bitfield-backed member followed by a 1-byte
primitive member round-trips at the values `0x1234` and `7`. -/
theorem c2_fixed_structure_roundtrip_witness :
    ∃ bytes ws,
      wire_bytes_list [.BitfieldMember ⟨"frame_control", "frame_control", 2⟩,
          .PrimitiveMember ⟨"sequence_number", 1⟩] = some ws
      ∧ struct_write [.BitfieldMember ⟨"frame_control", "frame_control", 2⟩,
          .PrimitiveMember ⟨"sequence_number", 1⟩] [0x1234, 7] = some bytes
      ∧ bytes.length = ws.sum
      ∧ struct_read [.BitfieldMember ⟨"frame_control", "frame_control", 2⟩,
          .PrimitiveMember ⟨"sequence_number", 1⟩] bytes = some ([0x1234, 7], []) :=
  c2_fixed_structure_roundtrip _ _ rfl (by decide) (by decide)

/-- Witness for C10: the empty bitfield schema is rejected. -/
theorem c10_zero_width_bitfield_rejected_witness :
    render ⟨"empty", "", []⟩
        = .error "cannot convert 0 bits into a Rust integral type width"
    ∧ ∀ n, 64 < n → (to_ty_width n).isOk = false :=
  c10_zero_width_bitfield_rejected ⟨"empty", "", []⟩ rfl

/-! ## Claims about enumerated decode (C4) -/

/-- Every reader-produced field value is below `2 ^ width`: the width-1 reader
returns 0 or 1, any other width masks with the field mask. -/
theorem read_field_lt (off w reg : Nat) : read_field off w reg < 2 ^ w := by
  unfold read_field
  by_cases h1 : w = 1
  · subst h1
    rw [if_pos rfl]
    split <;> norm_num
  · rw [if_neg h1]
    have hle : (reg >>> off) &&& field_mask w ≤ field_mask w := Nat.and_le_right
    have hm : field_mask w < 2 ^ w := by
      unfold field_mask
      have h2 : 2 ^ (w % 64) ≤ 2 ^ w := Nat.pow_le_pow_right (by norm_num) (Nat.mod_le w 64)
      have h3 : 0 < 2 ^ (w % 64) := Nat.pos_pow_of_pos _ (by norm_num)
      rw [Nat.shiftLeft_eq, one_mul]
      omega
    omega

/-- A 3-bit field whose declared values cover all `2 ^ 3 = 8` raw values. -/
def c4_field : BitFieldMember :=
  ⟨"f3", "", 3,
    [⟨"V0", "", 0⟩, ⟨"V1", "", 1⟩, ⟨"V2", "", 2⟩, ⟨"V3", "", 3⟩,
     ⟨"V4", "", 4⟩, ⟨"V5", "", 5⟩, ⟨"V6", "", 6⟩, ⟨"V7", "", 7⟩]⟩

/-- C4 counterexample: a 3-bit field declaring all 8 raw values — so the
declared variants do not number fewer than `2 ^ width` and the claim predicts
no fallback arm — still receives the `_ => unreachable!()` arm, because the
source compares against `1 << to_ty_width(width) = 256`, the value count of
the storage type `u8`, not of the 3-bit field. -/
theorem c4_unreachable_arm_counterexample :
    has_unreachable_arm c4_field = .ok true
    ∧ c4_field.enumerated_values.length = 2 ^ c4_field.bitsize
    ∧ ∀ r < 2 ^ c4_field.bitsize,
        (decode_variant c4_field.bitsize c4_field.enumerated_values r).isSome = true :=
  ⟨rfl, rfl, by decide⟩

/-- C4 (amended): decode maps a declared value's bit pattern to a variant
declared with exactly that pattern by exact first match; the decode match
carries the unreachable fallback arm exactly when the declared variants number
fewer than `2 ^ to_ty_width(width)` — the raw value count of the field's
storage type, not of the field width; and when the declared variants cover all
`2 ^ width` raw field values, the fallback is never taken on any
reader-produced value. -/
theorem c4_decode_exact_match_and_arm (f : BitFieldMember) (tw : Nat)
    (h : to_ty_width f.bitsize = .ok tw)
    (hcov : ∀ r < 2 ^ f.bitsize,
        (decode_variant f.bitsize f.enumerated_values r).isSome = true) :
    has_unreachable_arm f
      = .ok (decide (f.enumerated_values.length < 1 <<< (tw % 64)))
    ∧ (∀ ev ∈ f.enumerated_values, ∃ ev2 ∈ f.enumerated_values,
        decode_variant f.bitsize f.enumerated_values
            (unsuffixed_or_bool ev.value f.bitsize) = some ev2.name
        ∧ unsuffixed_or_bool ev2.value f.bitsize
            = unsuffixed_or_bool ev.value f.bitsize)
    ∧ ∀ off reg,
        (decode_variant f.bitsize f.enumerated_values
            (read_field off f.bitsize reg)).isSome = true := by
  refine ⟨by simp [has_unreachable_arm, h, Except.map], ?_, ?_⟩
  · intro ev hev
    have hsome : (f.enumerated_values.find?
        (fun e => unsuffixed_or_bool e.value f.bitsize
          == unsuffixed_or_bool ev.value f.bitsize)).isSome := by
      rw [List.find?_isSome]
      exact ⟨ev, hev, by simp⟩
    cases hfind : f.enumerated_values.find?
        (fun e => unsuffixed_or_bool e.value f.bitsize
          == unsuffixed_or_bool ev.value f.bitsize) with
    | none => rw [hfind] at hsome; simp at hsome
    | some e2 =>
      refine ⟨e2, List.mem_of_find?_eq_some hfind, ?_, ?_⟩
      · simp [decode_variant, hfind]
      · have hp := List.find?_some hfind
        simpa using hp
  · intro off reg
    exact hcov _ (read_field_lt off f.bitsize reg)

/-- Witness for the amended C4 at the all-covering 3-bit field. -/
theorem c4_decode_exact_match_and_arm_witness :
    has_unreachable_arm c4_field
      = .ok (decide (c4_field.enumerated_values.length < 1 <<< (8 % 64)))
    ∧ (∀ ev ∈ c4_field.enumerated_values, ∃ ev2 ∈ c4_field.enumerated_values,
        decode_variant c4_field.bitsize c4_field.enumerated_values
            (unsuffixed_or_bool ev.value c4_field.bitsize) = some ev2.name
        ∧ unsuffixed_or_bool ev2.value c4_field.bitsize
            = unsuffixed_or_bool ev.value c4_field.bitsize)
    ∧ ∀ off reg,
        (decode_variant c4_field.bitsize c4_field.enumerated_values
            (read_field off c4_field.bitsize reg)).isSome = true :=
  c4_decode_exact_match_and_arm c4_field 8 rfl (by decide)

/-! ## Claims about the alternatives machinery (C6, C7, C8, C9) -/

/-- The generated `new()` of a structure without alternative members holds 0
in every member slot. -/
theorem struct_new_of_noalt (ms : List StructMember)
    (h : ∀ m ∈ ms, m.isAlt = false) :
    struct_new ms = some (ms.map (fun _ => 0)) := by
  induction ms with
  | nil => rfl
  | cons m rest ih =>
    have hm0 : m.isAlt = false := h m (List.mem_cons_self m rest)
    have hm : m.member_default = some 0 := by
      cases m with
      | PrimitiveMember p => rfl
      | BitfieldMember b => rfl
      | AlternativesMember a => simp [StructMember.isAlt] at hm0
    simp [struct_new, hm, ih (fun x hx => h x (List.mem_cons_of_mem m hx))]

/-- C6: for a group built as `AlternativeOptions::new(g, A)` followed by
`insert_type(B)`, the option list is `[A, B]` with `A` recorded as the
default; the generated union `default()` yields the case wrapping `A`'s
default instance (`A::new()`, all member slots 0); and the generated union
`write` on a `B`-case instance produces exactly the bytes of `B`'s own
`write`. -/
theorem c6_union_default_and_write (g A B : String)
    (env : String → List StructMember) (vB : List Nat)
    (h : ∀ m ∈ env A, m.isAlt = false) :
    ((AlternativeOptions.new g A).insert_type B).alternatives = [A, B]
    ∧ ((AlternativeOptions.new g A).insert_type B).default = A
    ∧ union_default ((AlternativeOptions.new g A).insert_type B) env
        = some (A, (env A).map (fun _ => 0))
    ∧ union_write env (B, vB) = struct_write (env B) vB := by
  refine ⟨rfl, rfl, ?_, rfl⟩
  simp [union_default, AlternativeOptions.new, AlternativeOptions.insert_type,
    struct_new_of_noalt (env A) h]

/-- Witness for C6 on the `address` group of the MAC frame driver:
`addr_none` (empty, the default) and `addr_short` (one 2-byte member). -/
theorem c6_union_default_and_write_witness :
    ((AlternativeOptions.new "address" "addr_none").insert_type "addr_short").alternatives
        = ["addr_none", "addr_short"]
    ∧ ((AlternativeOptions.new "address" "addr_none").insert_type "addr_short").default
        = "addr_none"
    ∧ union_default ((AlternativeOptions.new "address" "addr_none").insert_type "addr_short")
        (fun s => if s == "addr_short" then [.PrimitiveMember ⟨"address", 2⟩] else [])
        = some ("addr_none", [])
    ∧ union_write
        (fun s => if s == "addr_short" then [.PrimitiveMember ⟨"address", 2⟩] else [])
        ("addr_short", [5])
        = struct_write [.PrimitiveMember ⟨"address", 2⟩] [5] :=
  c6_union_default_and_write "address" "addr_none" "addr_short" _ [5] (by decide)

/-- C7: an unconditional `read` is emitted exactly when the structure has no
alternative member; the tagged-union fragment of a group carries one
`read_<option>` function per declared option; and each `read_<option>`
decodes exactly that option's layout, wrapping the result in the
corresponding case. -/
theorem c7_read_emission (s : Structure) (alts : Alternatives) (r : StructRender)
    (h : render_with_alts s alts = .ok r) :
    (r.read_emitted = true ↔ ∀ m ∈ s.members, m.isAlt = false)
    ∧ (∀ k alt, (render_group k alt).read_funs
        = alt.alternatives.map (fun o => "read_" ++ o))
    ∧ ∀ env opt stream, union_read_opt env opt stream
        = (struct_read (env opt) stream).map (fun p => ((opt, p.1), p.2)) := by
  refine ⟨?_, fun k alt => rfl, fun env opt stream => rfl⟩
  unfold render_with_alts at h
  cases hc : check_alts s.members alts with
  | error e =>
    rw [hc] at h
    exact Except.noConfusion h
  | ok u =>
    rw [hc] at h
    cases hm : s.members.mapM member_ty with
    | error e =>
      rw [hm] at h
      exact Except.noConfusion h
    | ok tys =>
      rw [hm] at h
      have hr := Except.ok.inj h
      rw [← hr]
      simp [List.any_eq_false]

/-- Witness for C7: a structure with one alternative member renders (against a
registry that knows the group) with no unconditional `read`. -/
theorem c7_read_emission_witness :
    ((⟨"mhr", true, false, false, true, true, true⟩ : StructRender).read_emitted = true
        ↔ ∀ m ∈ (⟨"mhr", [.AlternativesMember ⟨"dest_pan", "panid"⟩]⟩ : Structure).members,
            m.isAlt = false)
    ∧ (∀ k alt, (render_group k alt).read_funs
        = alt.alternatives.map (fun o => "read_" ++ o))
    ∧ ∀ env opt stream, union_read_opt env opt stream
        = (struct_read (env opt) stream).map (fun p => ((opt, p.1), p.2)) :=
  c7_read_emission ⟨"mhr", [.AlternativesMember ⟨"dest_pan", "panid"⟩]⟩
    [("panid", ⟨"panid", "pan_none", ["pan_none", "pan_short"]⟩)]
    ⟨"mhr", true, false, false, true, true, true⟩ rfl

/-- Every failure of `Alternatives::get` carries the same fixed message. -/
theorem alternatives_get_error (a : Alternatives) (n e : String)
    (h : a.get n = .error e) : e = "Could not find alternative." := by
  unfold Alternatives.get at h
  cases hf : List.find? (fun p => p.1 == n) a with
  | none =>
    rw [hf] at h
    injection h with h2
    exact h2.symm
  | some p =>
    rw [hf] at h
    exact Except.noConfusion h

/-- If some alternative member of the list references a group the registry
cannot resolve, the first member loop aborts with the fixed error message. -/
theorem check_alts_error (ms : List StructMember) (alts : Alternatives)
    (h : ∃ a, StructMember.AlternativesMember a ∈ ms
        ∧ (alts.get a.alternatives).isOk = false) :
    check_alts ms alts = .error "Could not find alternative." := by
  induction ms with
  | nil =>
    obtain ⟨a, ha, _⟩ := h
    simp at ha
  | cons m rest ih =>
    obtain ⟨a, ha, hget⟩ := h
    cases m with
    | AlternativesMember b =>
      cases hg : alts.get b.alternatives with
      | error e =>
        rw [alternatives_get_error alts b.alternatives e hg] at hg
        show (do
          let _ ← alts.get b.alternatives
          check_alts rest alts) = .error "Could not find alternative."
        rw [hg]
        rfl
      | ok v =>
        show (do
          let _ ← alts.get b.alternatives
          check_alts rest alts) = .error "Could not find alternative."
        rw [hg]
        show check_alts rest alts = .error "Could not find alternative."
        rcases List.mem_cons.mp ha with heq | hmem
        · cases heq
          rw [hg] at hget
          simp [Except.isOk, Except.toBool] at hget
        · exact ih ⟨a, hmem, hget⟩
    | PrimitiveMember p =>
      have hmem : StructMember.AlternativesMember a ∈ rest := by
        rcases List.mem_cons.mp ha with heq | hmem
        · cases heq
        · exact hmem
      exact ih ⟨a, hmem, hget⟩
    | BitfieldMember b =>
      have hmem : StructMember.AlternativesMember a ∈ rest := by
        rcases List.mem_cons.mp ha with heq | hmem
        · cases heq
        · exact hmem
      exact ih ⟨a, hmem, hget⟩

/-- C8 counterexample: two structures whose alternative members reference two
different unknown group names fail with the identical fixed error message
`Could not find alternative.` — the reported error does not carry the group
name, so it cannot locate the offending schema entry. -/
theorem c8_unknown_group_counterexample :
    render_with_alts ⟨"s", [.AlternativesMember ⟨"dest", "missing"⟩]⟩ []
        = .error "Could not find alternative."
    ∧ render_with_alts ⟨"s", [.AlternativesMember ⟨"dest", "other_group"⟩]⟩ []
        = .error "Could not find alternative."
    ∧ "missing" ≠ "other_group" :=
  ⟨rfl, rfl, by decide⟩

/-- C8 (amended): a structure with a member referencing an alternatives group
absent from the registry fails to render (no fragment is produced), but the
error is the fixed message `Could not find alternative.`, which does not name
the group. -/
theorem c8_unknown_group_fails (s : Structure) (alts : Alternatives)
    (h : ∃ a, StructMember.AlternativesMember a ∈ s.members
        ∧ (alts.get a.alternatives).isOk = false) :
    render_with_alts s alts = .error "Could not find alternative." := by
  have hc := check_alts_error s.members alts h
  unfold render_with_alts
  rw [hc]
  rfl

/-- Witness for the amended C8: the `missing` group of the counterexample. -/
theorem c8_unknown_group_fails_witness :
    render_with_alts ⟨"s", [.AlternativesMember ⟨"dest", "missing"⟩]⟩ []
        = .error "Could not find alternative." :=
  c8_unknown_group_fails _ [] ⟨⟨"dest", "missing"⟩, List.mem_singleton.mpr rfl, rfl⟩

/-- A registry with the groups `a`, `b` in that iteration order. -/
def c9_alts_ab : Alternatives :=
  [("a", ⟨"a", "x", ["x"]⟩), ("b", ⟨"b", "y", ["y"]⟩)]

/-- The registry with the same contents in the opposite iteration order. -/
def c9_alts_ba : Alternatives :=
  [("b", ⟨"b", "y", ["y"]⟩), ("a", ⟨"a", "x", ["x"]⟩)]

/-- C9 counterexample: two registries with identical contents (every lookup
agrees) but different map iteration orders give different
`render_alternatives` fragments — the fragment depends on the `HashMap`
iteration order, which is hasher-seed dependent and not a function of the
registry's contents. -/
theorem c9_render_alternatives_order_counterexample :
    (∀ k, c9_alts_ab.get k = c9_alts_ba.get k)
    ∧ render_alternatives c9_alts_ab ≠ render_alternatives c9_alts_ba := by
  constructor
  · intro k
    by_cases ha : k = "a"
    · subst ha
      rfl
    · by_cases hb : k = "b"
      · subst hb
        rfl
      · have h1 : (("a" : String) == k) = false := beq_eq_false_iff_ne.mpr (Ne.symm ha)
        have h2 : (("b" : String) == k) = false := beq_eq_false_iff_ne.mpr (Ne.symm hb)
        simp [Alternatives.get, c9_alts_ab, c9_alts_ba, List.find?, h1, h2]
  · decide

/-- C9 (amended): the rendering engines are pure functions of their inputs,
and `render_with_alts` depends on the registry only through lookups: two
registries agreeing on every lookup render every structure identically.
`render_alternatives` is deterministic group-wise — its fragment is exactly
the per-group fragments in the registry's iteration order — but that order is
not a function of the registry's contents. -/
theorem c9_render_determinism (s : Structure) (a1 a2 : Alternatives)
    (h : ∀ k, a1.get k = a2.get k) :
    render_with_alts s a1 = render_with_alts s a2
    ∧ ∀ a : Alternatives, render_alternatives a = a.map (fun p => render_group p.1 p.2) := by
  refine ⟨?_, fun a => rfl⟩
  have hc : check_alts s.members a1 = check_alts s.members a2 := by
    induction s.members with
    | nil => rfl
    | cons m rest ih =>
      cases m with
      | AlternativesMember b => simp [check_alts, h b.alternatives, ih]
      | PrimitiveMember p => simpa [check_alts] using ih
      | BitfieldMember b => simpa [check_alts] using ih
  simp [render_with_alts, hc]

/-- Witness for the amended C9 at two concrete equal registries. -/
theorem c9_render_determinism_witness :
    render_with_alts ⟨"s", []⟩ c9_alts_ab = render_with_alts ⟨"s", []⟩ c9_alts_ab
    ∧ ∀ a : Alternatives, render_alternatives a = a.map (fun p => render_group p.1 p.2) :=
  c9_render_determinism ⟨"s", []⟩ c9_alts_ab c9_alts_ab (fun _ => rfl)

end ProtSpec
